import Mathlib

/-!
Verification of the reflective property-mutation command engine of
`editor/src/command/universal.rs` (the `define_universal_commands!` macro).

The reflection capability the commands are built on (`resolve_path_mut`,
`set_field_by_path`, `as_list_mut`, `reflect_push` / `reflect_pop` /
`reflect_insert` / `reflect_remove`) lives in the engine core, outside the
provided sources; those primitives are modelled from the
"Reflective Object Capability" contract of the specification.  The three command types, the
`try_modify_property` helper and the command factory are embedded directly
from the source.  A call that in Rust would panic on `Option::unwrap` is
modelled by returning `none`; a normal call returns `some (command state,
object state, log messages emitted by this call)`.
-/

namespace Fyrox

/-- Modelled from the spec: a runtime type identifier used by the dynamic
type checks of `replace` / `push` / `insert` (a value either has a primitive
runtime type or is an ordered collection of some element type). -/
inductive TyId where
  | prim (n : Nat)
  | coll (elem : TyId)
deriving DecidableEq

/-- Modelled from the spec: a dynamic, type-erased reflective value
(`Box<dyn Reflect>`): either a typed scalar payload or an ordered
collection of items with a fixed element type. -/
inductive DynValue where
  | scalar (ty : Nat) (data : Nat)
  | coll (elemTy : TyId) (items : List DynValue)

/-- The runtime type of a dynamic value, compared by the type checks of the reflection layer. -/
def DynValue.tyId : DynValue → TyId
  | .scalar ty _ => .prim ty
  | .coll e _ => .coll e

/-- The error messages the commands emit through the process-wide logging
sink, one constructor per `Log::err` call site of the source. -/
inductive LogMsg where
  | noSuchProperty (path : String)
  | setInvalidPath (path : String)
  | setInvalidValue (path : String)
  | notACollection (path : String)
  | pushTypeMismatch (path : String)
  | popFailed (path : String)
  | insertTypeMismatch (path : String)
deriving DecidableEq

/-- Lookup of the first field with the given name in a field list. -/
def lookupField : List (String × DynValue) → String → Option DynValue
  | [], _ => none
  | (n, v) :: rest, p => if n = p then some v else lookupField rest p

/-- Replacement of the first field with the given name in a field list. -/
def updateField : List (String × DynValue) → String → DynValue → List (String × DynValue)
  | [], _, _ => []
  | (n, old) :: rest, p, v =>
    if n = p then (n, v) :: rest else (n, old) :: updateField rest p v

/-- Modelled from the spec: a reflective object, i.e. the mapping from
textual paths to the fields they address (`resolve(path) -> FieldRef |
NotFound`); resolution is purely structural and recomputed on every call. -/
structure RObject where
  fields : List (String × DynValue)

/-- Modelled from the spec: the path resolver, `resolve(path) -> FieldRef |
NotFound`. -/
def RObject.resolvePath (o : RObject) (path : String) : Option DynValue :=
  lookupField o.fields path

/-- Writing a resolved field back into the object. -/
def RObject.setField (o : RObject) (path : String) (v : DynValue) : RObject :=
  ⟨updateField o.fields path v⟩

/-- The error type of `set_field_by_path`: either the path did not resolve
or the runtime type of the value did not match that of the field; in both cases the
value that failed to apply is handed back. -/
inductive SetFieldByPathError where
  | invalidPath (value : DynValue)
  | invalidValue (value : DynValue)

/-- Modelled from the spec: `set_field_by_path` — resolve the path; on
failure report `InvalidPath` with the value handed back; on a runtime type
mismatch report `InvalidValue` with the value handed back; otherwise
replace the field and return the old value. -/
def setFieldByPath (o : RObject) (path : String) (v : DynValue) :
    RObject × (DynValue ⊕ SetFieldByPathError) :=
  match o.resolvePath path with
  | none => (o, Sum.inr (SetFieldByPathError.invalidPath v))
  | some old =>
    if old.tyId = v.tyId then (o.setField path v, Sum.inl old)
    else (o, Sum.inr (SetFieldByPathError.invalidValue v))

/-- Modelled from the spec: `collection_push(value) -> Ok | TypeMismatch(value)`. -/
def reflectPush (elemTy : TyId) (items : List DynValue) (v : DynValue) :
    List DynValue ⊕ DynValue :=
  if v.tyId = elemTy then Sum.inl (items ++ [v]) else Sum.inr v

/-- Modelled from the spec: `collection_pop() -> Some(value) | None` — removes
and returns the tail item. -/
def reflectPop (items : List DynValue) : Option (List DynValue × DynValue) :=
  match items.getLast? with
  | none => none
  | some v => some (items.dropLast, v)

/-- Insertion at an index in a list (identity when the index is past the end). -/
def listInsertIdx {α : Type} : Nat → List α → α → List α
  | 0, l, v => v :: l
  | _ + 1, [], _ => []
  | n + 1, a :: l, v => a :: listInsertIdx n l v

/-- Modelled from the spec: `collection_insert(index, value) -> Ok |
TypeMismatch(value)`. -/
def reflectInsert (elemTy : TyId) (items : List DynValue) (i : Nat) (v : DynValue) :
    List DynValue ⊕ DynValue :=
  if v.tyId = elemTy then Sum.inl (listInsertIdx i items v) else Sum.inr v

/-- Modelled from the spec: `collection_remove(index) -> Some(value) | None` —
removes and returns the item at the index, or `None` when out of range. -/
def reflectRemove (items : List DynValue) (i : Nat) : Option (List DynValue × DynValue) :=
  match items[i]? with
  | none => none
  | some v => some (items.eraseIdx i, v)

/-- `try_modify_property`: resolve the path; on success run the continuation
on the field (the continuation may update the field, the command state, and
emit log messages; `none` models a panic inside it); on failure log
`NoSuchProperty` and leave the command state `keep` and the object untouched. -/
def tryModifyProperty {α : Type} (ctx : RObject) (path : String) (keep : α)
    (func : DynValue → Option (DynValue × α × List LogMsg)) :
    Option (α × RObject × List LogMsg) :=
  match ctx.resolvePath path with
  | some field =>
    match func field with
    | none => none
    | some (field1, a, log) => some (a, ctx.setField path field1, log)
  | none => some (keep, ctx, [LogMsg.noSuchProperty path])

/-- `SetPropertyCommand`: a path and the alternating pending-value slot. -/
structure SetPropertyCommand where
  path : String
  value : Option DynValue

/-- `SetPropertyCommand::new`. -/
def SetPropertyCommand.new (path : String) (value : DynValue) : SetPropertyCommand :=
  ⟨path, some value⟩

/-- `SetPropertyCommand::swap`: take the pending value (panic when the slot
is empty), call `set_field_by_path`; on success store the old value in the
slot; on `InvalidPath` or `InvalidValue` log one error and put the failed
value back into the slot. -/
def SetPropertyCommand.swap (c : SetPropertyCommand) (ctx : RObject) :
    Option (SetPropertyCommand × RObject × List LogMsg) :=
  match c.value with
  | none => none
  | some v =>
    match setFieldByPath ctx c.path v with
    | (ctx1, Sum.inl oldValue) =>
      some ({ c with value := some oldValue }, ctx1, [])
    | (ctx1, Sum.inr (SetFieldByPathError.invalidPath val)) =>
      some ({ c with value := some val }, ctx1, [LogMsg.setInvalidPath c.path])
    | (ctx1, Sum.inr (SetFieldByPathError.invalidValue val)) =>
      some ({ c with value := some val }, ctx1, [LogMsg.setInvalidValue c.path])

/-- `SetPropertyCommand::execute` is a single call to `swap`. -/
def SetPropertyCommand.execute (c : SetPropertyCommand) (ctx : RObject) :
    Option (SetPropertyCommand × RObject × List LogMsg) :=
  c.swap ctx

/-- `SetPropertyCommand::revert` is a single call to `swap`. -/
def SetPropertyCommand.revert (c : SetPropertyCommand) (ctx : RObject) :
    Option (SetPropertyCommand × RObject × List LogMsg) :=
  c.swap ctx

/-- `AddCollectionItemCommand`: a path and the pending item to append. -/
structure AddCollectionItemCommand where
  path : String
  item : Option DynValue

/-- `AddCollectionItemCommand::new`. -/
def AddCollectionItemCommand.new (path : String) (item : DynValue) :
    AddCollectionItemCommand :=
  ⟨path, some item⟩

/-- `AddCollectionItemCommand::execute`: resolve the path; if the field is
not a collection log one error and keep the pending item; otherwise take the
item (panic when the slot is empty) and push it; on a push type mismatch log
one error and put the item back; on success the slot becomes empty. -/
def AddCollectionItemCommand.execute (c : AddCollectionItemCommand) (ctx : RObject) :
    Option (AddCollectionItemCommand × RObject × List LogMsg) :=
  tryModifyProperty ctx c.path c (fun field =>
    match field with
    | DynValue.coll elemTy items =>
      match c.item with
      | none => none
      | some it =>
        match reflectPush elemTy items it with
        | Sum.inl items1 =>
          some (DynValue.coll elemTy items1, { c with item := none }, [])
        | Sum.inr itemBack =>
          some (field, { c with item := some itemBack }, [LogMsg.pushTypeMismatch c.path])
    | DynValue.scalar ty data =>
      some (DynValue.scalar ty data, c, [LogMsg.notACollection c.path]))

/-- `AddCollectionItemCommand::revert`: resolve the path; if the field is not
a collection log one error; otherwise pop the tail item into the pending
slot, or log one error when the collection is empty (the slot is left as it
was). -/
def AddCollectionItemCommand.revert (c : AddCollectionItemCommand) (ctx : RObject) :
    Option (AddCollectionItemCommand × RObject × List LogMsg) :=
  tryModifyProperty ctx c.path c (fun field =>
    match field with
    | DynValue.coll elemTy items =>
      match reflectPop items with
      | some (items1, it) =>
        some (DynValue.coll elemTy items1, { c with item := some it }, [])
      | none =>
        some (field, c, [LogMsg.popFailed c.path])
    | DynValue.scalar ty data =>
      some (DynValue.scalar ty data, c, [LogMsg.notACollection c.path]))

/-- `RemoveCollectionItemCommand`: a path, a fixed index and the pending
slot holding the removed item between `execute` and `revert`. -/
structure RemoveCollectionItemCommand where
  path : String
  index : Nat
  value : Option DynValue

/-- `RemoveCollectionItemCommand::new`: the pending slot starts empty. -/
def RemoveCollectionItemCommand.new (path : String) (index : Nat) :
    RemoveCollectionItemCommand :=
  ⟨path, index, none⟩

/-- `RemoveCollectionItemCommand::execute`: resolve the path; if the field is
not a collection log one error; otherwise store `reflect_remove(index)`
into the pending slot — `Some(item)` on success, `None` (with no log) when
the index is out of range. -/
def RemoveCollectionItemCommand.execute (c : RemoveCollectionItemCommand) (ctx : RObject) :
    Option (RemoveCollectionItemCommand × RObject × List LogMsg) :=
  tryModifyProperty ctx c.path c (fun field =>
    match field with
    | DynValue.coll elemTy items =>
      match reflectRemove items c.index with
      | some (items1, it) =>
        some (DynValue.coll elemTy items1, { c with value := some it }, [])
      | none =>
        some (field, { c with value := none }, [])
    | DynValue.scalar ty data =>
      some (DynValue.scalar ty data, c, [LogMsg.notACollection c.path]))

/-- `RemoveCollectionItemCommand::revert`: resolve the path; if the field is
not a collection log one error; otherwise take the pending item (panic when
the slot is empty) and insert it at the fixed index; on a type mismatch log
one error and put the item back. -/
def RemoveCollectionItemCommand.revert (c : RemoveCollectionItemCommand) (ctx : RObject) :
    Option (RemoveCollectionItemCommand × RObject × List LogMsg) :=
  tryModifyProperty ctx c.path c (fun field =>
    match field with
    | DynValue.coll elemTy items =>
      match c.value with
      | none => none
      | some v =>
        match reflectInsert elemTy items c.index v with
        | Sum.inl items1 =>
          some (DynValue.coll elemTy items1, { c with value := none }, [])
        | Sum.inr back =>
          some (field, { c with value := some back }, [LogMsg.insertTypeMismatch c.path])
    | DynValue.scalar ty data =>
      some (DynValue.scalar ty data, c, [LogMsg.notACollection c.path]))

/-- Modelled from the spec: the discriminant of a UI-originated change
description (`PropertyAction::from_field_kind`). -/
inductive PropertyAction where
  | modify (value : DynValue)
  | addItem (value : DynValue)
  | removeItem (index : Nat)
  | revert

/-- The command wrapper the factory returns: one of the three command kinds. -/
inductive UniversalCommand where
  | set (c : SetPropertyCommand)
  | add (c : AddCollectionItemCommand)
  | remove (c : RemoveCollectionItemCommand)

/-- The command factory generated by `define_universal_commands!`: `Modify`
yields a `SetPropertyCommand`, `AddItem` an `AddCollectionItemCommand`,
`RemoveItem` a `RemoveCollectionItemCommand`, and `Revert` yields no
command (handled by the caller). -/
def makeCommand (path : String) (action : PropertyAction) : Option UniversalCommand :=
  match action with
  | PropertyAction.modify v =>
    some (UniversalCommand.set (SetPropertyCommand.new path v))
  | PropertyAction.addItem v =>
    some (UniversalCommand.add (AddCollectionItemCommand.new path v))
  | PropertyAction.removeItem i =>
    some (UniversalCommand.remove (RemoveCollectionItemCommand.new path i))
  | PropertyAction.revert => none

/-! Helper lemmas about field lookup and update. -/

theorem lookupField_updateField_self (fs : List (String × DynValue)) (p : String)
    (v : DynValue) (h : (lookupField fs p).isSome) :
    lookupField (updateField fs p v) p = some v := by
  induction fs with
  | nil => simp [lookupField] at h
  | cons hd tl ih =>
    obtain ⟨n, w⟩ := hd
    by_cases hn : n = p
    · simp [lookupField, updateField, hn]
    · simp only [lookupField, updateField, if_neg hn] at h ⊢
      exact ih h

theorem updateField_self_eq (fs : List (String × DynValue)) (p : String) (v : DynValue)
    (h : lookupField fs p = some v) : updateField fs p v = fs := by
  induction fs with
  | nil => rfl
  | cons hd tl ih =>
    obtain ⟨n, w⟩ := hd
    by_cases hn : n = p
    · simp only [lookupField, if_pos hn, Option.some.injEq] at h
      simp [updateField, hn, h]
    · simp only [lookupField, if_neg hn] at h
      simp [updateField, hn, ih h]

theorem resolvePath_setField_self (o : RObject) (p : String) (v : DynValue)
    (h : (o.resolvePath p).isSome) : (o.setField p v).resolvePath p = some v :=
  lookupField_updateField_self o.fields p v h

theorem setField_resolve_eq (o : RObject) (p : String) (v : DynValue)
    (h : o.resolvePath p = some v) : o.setField p v = o := by
  cases o with
  | mk fs => exact congrArg RObject.mk (updateField_self_eq fs p v h)

/-! Helper lemmas about the collection operations. -/

theorem listInsertIdx_eraseIdx {α : Type} :
    ∀ (l : List α) (i : Nat) (h : i < l.length),
      listInsertIdx i (l.eraseIdx i) (l.get ⟨i, h⟩) = l
  | _ :: _, 0, _ => rfl
  | a :: l, i + 1, h =>
    congrArg (fun t => a :: t) (listInsertIdx_eraseIdx l i (Nat.lt_of_succ_lt_succ h))

theorem length_eraseIdx_succ {α : Type} :
    ∀ (l : List α) (i : Nat), i < l.length → (l.eraseIdx i).length + 1 = l.length
  | _ :: _, 0, _ => rfl
  | _ :: l, i + 1, h =>
    congrArg Nat.succ (length_eraseIdx_succ l i (Nat.lt_of_succ_lt_succ h))

/-! The claims. -/

/-- C7: the command factory maps the change-description discriminant 1:1 —
`Modify(value)` yields a `SetPropertyCommand` with that path and value,
`AddItem(value)` an `AddCollectionItemCommand` with that path and value,
`RemoveItem(index)` a `RemoveCollectionItemCommand` with that path and
index, and `Revert` yields no command (the caller must handle it). -/
theorem makeCommand_classification (path : String) :
    (∀ v : DynValue, makeCommand path (PropertyAction.modify v) =
      some (UniversalCommand.set (SetPropertyCommand.new path v))) ∧
    (∀ v : DynValue, makeCommand path (PropertyAction.addItem v) =
      some (UniversalCommand.add (AddCollectionItemCommand.new path v))) ∧
    (∀ i : Nat, makeCommand path (PropertyAction.removeItem i) =
      some (UniversalCommand.remove (RemoveCollectionItemCommand.new path i))) ∧
    makeCommand path PropertyAction.revert = none :=
  ⟨fun _ => rfl, fun _ => rfl, fun _ => rfl, rfl⟩

/-- C8: `SetPropertyCommand::execute` and `SetPropertyCommand::revert` are
extensionally identical — both are a single call to `swap`, so the two
embedded functions are equal. -/
theorem set_execute_eq_revert :
    @SetPropertyCommand.execute = @SetPropertyCommand.revert :=
  rfl

/-- C5: at the concrete object `{items: [scalar 10]}` and the out-of-range
index 5, `RemoveCollectionItemCommand::execute` emits no log message at all
(the log component is `[]`) while leaving the pending slot empty and the
object unchanged — the removal failure is silent, it is not logged. -/
theorem remove_out_of_range_silent :
    RemoveCollectionItemCommand.execute ⟨"items", 5, none⟩
        (RObject.mk [("items", DynValue.coll (TyId.prim 0) [DynValue.scalar 0 10])]) =
      some (⟨"items", 5, none⟩,
        RObject.mk [("items", DynValue.coll (TyId.prim 0) [DynValue.scalar 0 10])],
        []) :=
  rfl

/-- C1: for a reflective object with a field at `path` holding `v0` and a
`SetPropertyCommand` carrying `v1` whose runtime type matches, `execute`
(a `swap`) installs `v1` and captures `v0` pending; `revert` (a `swap`)
leaves the field at exactly `v0` with `v1` pending again; a second `revert`
restores the field to `v1` with `v0` pending — `swap` is an involution on
the (field, pending-slot) pair when path resolution and the type check
succeed. -/
theorem set_execute_revert_involution (obj : RObject) (path : String) (v0 v1 : DynValue)
    (hres : obj.resolvePath path = some v0) (hty : v0.tyId = v1.tyId) :
    ∃ obj1 obj2 obj3 : RObject,
      (SetPropertyCommand.new path v1).execute obj = some (⟨path, some v0⟩, obj1, []) ∧
      obj1.resolvePath path = some v1 ∧
      SetPropertyCommand.revert ⟨path, some v0⟩ obj1 = some (⟨path, some v1⟩, obj2, []) ∧
      obj2.resolvePath path = some v0 ∧
      SetPropertyCommand.revert ⟨path, some v1⟩ obj2 = some (⟨path, some v0⟩, obj3, []) ∧
      obj3.resolvePath path = some v1 := by
  have h1 : (obj.setField path v1).resolvePath path = some v1 :=
    resolvePath_setField_self obj path v1 (by rw [hres]; rfl)
  have h2 : ((obj.setField path v1).setField path v0).resolvePath path = some v0 :=
    resolvePath_setField_self _ path v0 (by rw [h1]; rfl)
  have h3 : (((obj.setField path v1).setField path v0).setField path v1).resolvePath path
      = some v1 :=
    resolvePath_setField_self _ path v1 (by rw [h2]; rfl)
  refine ⟨_, _, _, ?_, h1, ?_, h2, ?_, h3⟩
  · simp [SetPropertyCommand.execute, SetPropertyCommand.new, SetPropertyCommand.swap,
      setFieldByPath, hres, hty]
  · simp [SetPropertyCommand.revert, SetPropertyCommand.swap, setFieldByPath, h1, hty]
  · simp [SetPropertyCommand.revert, SetPropertyCommand.swap, setFieldByPath, h2, hty]

/-- Witness for C1 at the object `{hp: scalar 100}` with new value
`scalar 50`. -/
theorem set_execute_revert_involution_witness :
    (RObject.mk [("hp", DynValue.scalar 0 100)]).resolvePath "hp" =
        some (DynValue.scalar 0 100) ∧
    (DynValue.scalar 0 100).tyId = (DynValue.scalar 0 50).tyId ∧
    (∃ obj1 obj2 obj3 : RObject,
      (SetPropertyCommand.new "hp" (DynValue.scalar 0 50)).execute
          (RObject.mk [("hp", DynValue.scalar 0 100)]) =
        some (⟨"hp", some (DynValue.scalar 0 100)⟩, obj1, []) ∧
      obj1.resolvePath "hp" = some (DynValue.scalar 0 50) ∧
      SetPropertyCommand.revert ⟨"hp", some (DynValue.scalar 0 100)⟩ obj1 =
        some (⟨"hp", some (DynValue.scalar 0 50)⟩, obj2, []) ∧
      obj2.resolvePath "hp" = some (DynValue.scalar 0 100) ∧
      SetPropertyCommand.revert ⟨"hp", some (DynValue.scalar 0 50)⟩ obj2 =
        some (⟨"hp", some (DynValue.scalar 0 100)⟩, obj3, []) ∧
      obj3.resolvePath "hp" = some (DynValue.scalar 0 50)) :=
  ⟨rfl, rfl, set_execute_revert_involution _ "hp" _ _ rfl rfl⟩

/-- C4: when the path does not resolve, or the runtime type of the pending
value does not match that of the field, `SetPropertyCommand::swap` does not panic (it
returns a normal result), logs exactly one error, leaves the target object
entirely unchanged and puts the failed value back into the pending slot
unchanged; because the returned command and object are exactly the inputs,
a repeated `swap` with the same invalid input is the very same call and
produces the same failure and the same unchanged state. -/
theorem set_swap_failure_safe (obj : RObject) (path : String) (v : DynValue)
    (hfail : obj.resolvePath path = none ∨
      ∃ old, obj.resolvePath path = some old ∧ old.tyId ≠ v.tyId) :
    ∃ msg : LogMsg,
      SetPropertyCommand.swap ⟨path, some v⟩ obj = some (⟨path, some v⟩, obj, [msg]) := by
  rcases hfail with h | ⟨old, h, hty⟩
  · exact ⟨LogMsg.setInvalidPath path,
      by simp [SetPropertyCommand.swap, setFieldByPath, h]⟩
  · exact ⟨LogMsg.setInvalidValue path,
      by simp [SetPropertyCommand.swap, setFieldByPath, h, hty]⟩

/-- Witness for C4 at the empty object and the unresolvable path
`missing`. -/
theorem set_swap_failure_safe_witness :
    ((RObject.mk []).resolvePath "missing" = none ∨
      ∃ old, (RObject.mk []).resolvePath "missing" = some old ∧
        old.tyId ≠ (DynValue.scalar 0 1).tyId) ∧
    ∃ msg : LogMsg,
      SetPropertyCommand.swap ⟨"missing", some (DynValue.scalar 0 1)⟩ (RObject.mk []) =
        some (⟨"missing", some (DynValue.scalar 0 1)⟩, RObject.mk [], [msg]) :=
  ⟨Or.inl rfl,
    set_swap_failure_safe (RObject.mk []) "missing" (DynValue.scalar 0 1) (Or.inl rfl)⟩

/-- C9: the pending slot is a required precondition enforced by panic:
`SetPropertyCommand::swap` unconditionally unwraps the slot and panics when
it is empty; `AddCollectionItemCommand::execute` panics when the slot is
empty once the path has resolved to a collection; and
`RemoveCollectionItemCommand::revert` panics when the slot is empty once
the path has resolved to a collection. -/
theorem pending_slot_unwrap_panics :
    (∀ (c : SetPropertyCommand) (obj : RObject), c.value = none →
      c.swap obj = none) ∧
    (∀ (c : AddCollectionItemCommand) (obj : RObject) (e : TyId) (items : List DynValue),
      c.item = none → obj.resolvePath c.path = some (DynValue.coll e items) →
      c.execute obj = none) ∧
    (∀ (c : RemoveCollectionItemCommand) (obj : RObject) (e : TyId) (items : List DynValue),
      c.value = none → obj.resolvePath c.path = some (DynValue.coll e items) →
      c.revert obj = none) := by
  refine ⟨?_, ?_, ?_⟩
  · intro c obj h
    simp [SetPropertyCommand.swap, h]
  · intro c obj e items h hres
    simp [AddCollectionItemCommand.execute, tryModifyProperty, hres, h]
  · intro c obj e items h hres
    simp [RemoveCollectionItemCommand.revert, tryModifyProperty, hres, h]

/-- Witness for C9 at commands whose pending slot is empty, over an object
with the collection field `c`. -/
theorem pending_slot_unwrap_panics_witness :
    SetPropertyCommand.swap ⟨"a", none⟩ (RObject.mk []) = none ∧
    AddCollectionItemCommand.execute ⟨"c", none⟩
        (RObject.mk [("c", DynValue.coll (TyId.prim 0) [])]) = none ∧
    RemoveCollectionItemCommand.revert ⟨"c", 0, none⟩
        (RObject.mk [("c", DynValue.coll (TyId.prim 0) [])]) = none :=
  ⟨pending_slot_unwrap_panics.1 ⟨"a", none⟩ (RObject.mk []) rfl,
    pending_slot_unwrap_panics.2.1 ⟨"c", none⟩
      (RObject.mk [("c", DynValue.coll (TyId.prim 0) [])]) (TyId.prim 0) [] rfl rfl,
    pending_slot_unwrap_panics.2.2 ⟨"c", 0, none⟩
      (RObject.mk [("c", DynValue.coll (TyId.prim 0) [])]) (TyId.prim 0) [] rfl rfl⟩

/-- C10: when path resolution fails, `AddCollectionItemCommand::execute`
and `RemoveCollectionItemCommand::revert` leave the pending slot exactly as
it was, mutate no field of the target object, and emit exactly one logged
error — so the operation can be retried once the path becomes valid. -/
theorem no_such_property_preserves_pending (obj : RObject) (path : String)
    (hres : obj.resolvePath path = none) :
    (∀ itm : Option DynValue,
      AddCollectionItemCommand.execute ⟨path, itm⟩ obj =
        some (⟨path, itm⟩, obj, [LogMsg.noSuchProperty path])) ∧
    (∀ (i : Nat) (v : Option DynValue),
      RemoveCollectionItemCommand.revert ⟨path, i, v⟩ obj =
        some (⟨path, i, v⟩, obj, [LogMsg.noSuchProperty path])) := by
  constructor
  · intro itm
    simp [AddCollectionItemCommand.execute, tryModifyProperty, hres]
  · intro i v
    simp [RemoveCollectionItemCommand.revert, tryModifyProperty, hres]

/-- Witness for C10 at the empty object and the unresolvable path `q`. -/
theorem no_such_property_preserves_pending_witness :
    (RObject.mk []).resolvePath "q" = none ∧
    AddCollectionItemCommand.execute ⟨"q", some (DynValue.scalar 0 3)⟩ (RObject.mk []) =
      some (⟨"q", some (DynValue.scalar 0 3)⟩, RObject.mk [],
        [LogMsg.noSuchProperty "q"]) ∧
    RemoveCollectionItemCommand.revert ⟨"q", 2, some (DynValue.scalar 0 3)⟩
        (RObject.mk []) =
      some (⟨"q", 2, some (DynValue.scalar 0 3)⟩, RObject.mk [],
        [LogMsg.noSuchProperty "q"]) :=
  ⟨rfl,
    (no_such_property_preserves_pending (RObject.mk []) "q" rfl).1
      (some (DynValue.scalar 0 3)),
    (no_such_property_preserves_pending (RObject.mk []) "q" rfl).2 2
      (some (DynValue.scalar 0 3))⟩

/-- C2: for a collection field and a valid index `i`, `execute` of a fresh
`RemoveCollectionItemCommand` removes exactly the item at `i` (the length
decreases by one, the remaining items keep their order — the result is the
prefix before `i` followed by the suffix after `i` — and the removed item
is stored in the pending slot), and `revert` re-inserts the captured item
at the same index `i`, restoring the original order and length. -/
theorem remove_execute_revert_roundtrip (obj : RObject) (path : String) (e : TyId)
    (items : List DynValue) (i : Nat)
    (hres : obj.resolvePath path = some (DynValue.coll e items))
    (hi : i < items.length)
    (hwt : ∀ x ∈ items, x.tyId = e) :
    (RemoveCollectionItemCommand.new path i).execute obj =
      some (⟨path, i, some (items.get ⟨i, hi⟩)⟩,
        obj.setField path (DynValue.coll e (items.eraseIdx i)), []) ∧
    (items.eraseIdx i).length + 1 = items.length ∧
    items.eraseIdx i = items.take i ++ items.drop (i + 1) ∧
    ∃ obj2 : RObject,
      RemoveCollectionItemCommand.revert ⟨path, i, some (items.get ⟨i, hi⟩)⟩
          (obj.setField path (DynValue.coll e (items.eraseIdx i))) =
        some (⟨path, i, none⟩, obj2, []) ∧
      obj2.resolvePath path = some (DynValue.coll e items) := by
  have hget : items[i]? = some (items.get ⟨i, hi⟩) := by
    simp [List.getElem?_eq_getElem hi]
  have hres1 : (obj.setField path (DynValue.coll e (items.eraseIdx i))).resolvePath path =
      some (DynValue.coll e (items.eraseIdx i)) :=
    resolvePath_setField_self obj path _ (by rw [hres]; rfl)
  have htyit : items[i].tyId = e := hwt _ (List.get_mem items i hi)
  have hins : listInsertIdx i (items.eraseIdx i) items[i] = items :=
    listInsertIdx_eraseIdx items i hi
  refine ⟨?_, length_eraseIdx_succ items i hi, List.eraseIdx_eq_take_drop_succ items i,
    (obj.setField path (DynValue.coll e (items.eraseIdx i))).setField path
      (DynValue.coll e items), ?_, ?_⟩
  · simp [RemoveCollectionItemCommand.execute, RemoveCollectionItemCommand.new,
      tryModifyProperty, hres, reflectRemove, hget]
  · simp [RemoveCollectionItemCommand.revert, tryModifyProperty, hres1,
      reflectInsert, htyit, hins]
  · exact resolvePath_setField_self _ path _ (by rw [hres1]; rfl)

/-- Witness for C2 at the concrete scenario of the spec, `{items: [A, B, C]}`
with index 1: execute yields `[A, C]` with `B` captured, revert restores
`[A, B, C]`. -/
theorem remove_execute_revert_roundtrip_witness :
    1 < ([DynValue.scalar 0 10, DynValue.scalar 0 20, DynValue.scalar 0 30] :
        List DynValue).length ∧
    (∀ x ∈ ([DynValue.scalar 0 10, DynValue.scalar 0 20, DynValue.scalar 0 30] :
        List DynValue), x.tyId = TyId.prim 0) ∧
    ((RemoveCollectionItemCommand.new "items" 1).execute
        (RObject.mk [("items", DynValue.coll (TyId.prim 0)
          [DynValue.scalar 0 10, DynValue.scalar 0 20, DynValue.scalar 0 30])]) =
      some (⟨"items", 1, some (DynValue.scalar 0 20)⟩,
        (RObject.mk [("items", DynValue.coll (TyId.prim 0)
          [DynValue.scalar 0 10, DynValue.scalar 0 20, DynValue.scalar 0 30])]).setField
          "items" (DynValue.coll (TyId.prim 0)
            [DynValue.scalar 0 10, DynValue.scalar 0 30]), []) ∧
    (2 : Nat) + 1 = 3 ∧
    ([DynValue.scalar 0 10, DynValue.scalar 0 30] : List DynValue) =
      [DynValue.scalar 0 10] ++ [DynValue.scalar 0 30] ∧
    ∃ obj2 : RObject,
      RemoveCollectionItemCommand.revert ⟨"items", 1, some (DynValue.scalar 0 20)⟩
          ((RObject.mk [("items", DynValue.coll (TyId.prim 0)
            [DynValue.scalar 0 10, DynValue.scalar 0 20, DynValue.scalar 0 30])]).setField
            "items" (DynValue.coll (TyId.prim 0)
              [DynValue.scalar 0 10, DynValue.scalar 0 30])) =
        some (⟨"items", 1, none⟩, obj2, []) ∧
      obj2.resolvePath "items" = some (DynValue.coll (TyId.prim 0)
        [DynValue.scalar 0 10, DynValue.scalar 0 20, DynValue.scalar 0 30])) :=
  ⟨by decide, by decide,
    remove_execute_revert_roundtrip
      (RObject.mk [("items", DynValue.coll (TyId.prim 0)
        [DynValue.scalar 0 10, DynValue.scalar 0 20, DynValue.scalar 0 30])])
      "items" (TyId.prim 0)
      [DynValue.scalar 0 10, DynValue.scalar 0 20, DynValue.scalar 0 30] 1
      rfl (by decide) (by decide)⟩

/-- C3: for a collection field with `n` items and an
`AddCollectionItemCommand` whose pending slot holds an item of matching
type, `execute` appends the item at the tail (length `n + 1`, pending slot
empty), and a subsequent `revert` removes exactly the last item, returning
the length to `n` with the removed tail item stored back in the pending
slot. -/
theorem add_execute_revert_roundtrip (obj : RObject) (path : String) (e : TyId)
    (items : List DynValue) (it : DynValue)
    (hres : obj.resolvePath path = some (DynValue.coll e items))
    (hty : it.tyId = e) :
    (AddCollectionItemCommand.new path it).execute obj =
      some (⟨path, none⟩, obj.setField path (DynValue.coll e (items ++ [it])), []) ∧
    (items ++ [it]).length = items.length + 1 ∧
    ∃ obj2 : RObject,
      AddCollectionItemCommand.revert ⟨path, none⟩
          (obj.setField path (DynValue.coll e (items ++ [it]))) =
        some (⟨path, some it⟩, obj2, []) ∧
      obj2.resolvePath path = some (DynValue.coll e items) := by
  have hres1 : (obj.setField path (DynValue.coll e (items ++ [it]))).resolvePath path =
      some (DynValue.coll e (items ++ [it])) :=
    resolvePath_setField_self obj path _ (by rw [hres]; rfl)
  have hpop : reflectPop (items ++ [it]) = some (items, it) := by
    simp [reflectPop, List.getLast?_concat, List.dropLast_concat]
  refine ⟨?_, by simp,
    (obj.setField path (DynValue.coll e (items ++ [it]))).setField path
      (DynValue.coll e items), ?_, ?_⟩
  · simp [AddCollectionItemCommand.execute, AddCollectionItemCommand.new,
      tryModifyProperty, hres, reflectPush, hty]
  · simp [AddCollectionItemCommand.revert, tryModifyProperty, hres1, hpop]
  · exact resolvePath_setField_self _ path _ (by rw [hres1]; rfl)

/-- Witness for C3 at a collection of two items and a matching third
item. -/
theorem add_execute_revert_roundtrip_witness :
    (RObject.mk [("items", DynValue.coll (TyId.prim 0)
        [DynValue.scalar 0 1, DynValue.scalar 0 2])]).resolvePath "items" =
      some (DynValue.coll (TyId.prim 0) [DynValue.scalar 0 1, DynValue.scalar 0 2]) ∧
    (DynValue.scalar 0 3).tyId = TyId.prim 0 ∧
    ((AddCollectionItemCommand.new "items" (DynValue.scalar 0 3)).execute
        (RObject.mk [("items", DynValue.coll (TyId.prim 0)
          [DynValue.scalar 0 1, DynValue.scalar 0 2])]) =
      some (⟨"items", none⟩,
        (RObject.mk [("items", DynValue.coll (TyId.prim 0)
          [DynValue.scalar 0 1, DynValue.scalar 0 2])]).setField "items"
          (DynValue.coll (TyId.prim 0)
            [DynValue.scalar 0 1, DynValue.scalar 0 2, DynValue.scalar 0 3]), []) ∧
    (3 : Nat) = 2 + 1 ∧
    ∃ obj2 : RObject,
      AddCollectionItemCommand.revert ⟨"items", none⟩
          ((RObject.mk [("items", DynValue.coll (TyId.prim 0)
            [DynValue.scalar 0 1, DynValue.scalar 0 2])]).setField "items"
            (DynValue.coll (TyId.prim 0)
              [DynValue.scalar 0 1, DynValue.scalar 0 2, DynValue.scalar 0 3])) =
        some (⟨"items", some (DynValue.scalar 0 3)⟩, obj2, []) ∧
      obj2.resolvePath "items" = some (DynValue.coll (TyId.prim 0)
        [DynValue.scalar 0 1, DynValue.scalar 0 2])) :=
  ⟨rfl, rfl,
    add_execute_revert_roundtrip _ "items" (TyId.prim 0)
      [DynValue.scalar 0 1, DynValue.scalar 0 2] (DynValue.scalar 0 3) rfl rfl⟩

/-- C6: on `AddCollectionItemCommand::execute`, a non-collection field
causes one logged error with nothing applied and the pending item
retained; a push type mismatch causes one logged error with the item kept
in the pending slot; on `revert`, a pop from an empty collection causes
one logged error with the pending slot left empty, and otherwise the
popped tail item is stored back in the pending slot. -/
theorem add_command_error_handling (obj : RObject) (path : String) :
    (∀ (ty data : Nat) (itm : Option DynValue),
      obj.resolvePath path = some (DynValue.scalar ty data) →
      AddCollectionItemCommand.execute ⟨path, itm⟩ obj =
        some (⟨path, itm⟩, obj, [LogMsg.notACollection path])) ∧
    (∀ (e : TyId) (items : List DynValue) (it : DynValue),
      obj.resolvePath path = some (DynValue.coll e items) → it.tyId ≠ e →
      AddCollectionItemCommand.execute ⟨path, some it⟩ obj =
        some (⟨path, some it⟩, obj, [LogMsg.pushTypeMismatch path])) ∧
    (∀ e : TyId,
      obj.resolvePath path = some (DynValue.coll e []) →
      AddCollectionItemCommand.revert ⟨path, none⟩ obj =
        some (⟨path, none⟩, obj, [LogMsg.popFailed path])) ∧
    (∀ (e : TyId) (items : List DynValue) (it : DynValue),
      obj.resolvePath path = some (DynValue.coll e (items ++ [it])) →
      AddCollectionItemCommand.revert ⟨path, none⟩ obj =
        some (⟨path, some it⟩, obj.setField path (DynValue.coll e items), [])) := by
  refine ⟨?_, ?_, ?_, ?_⟩
  · intro ty data itm h
    have hset := setField_resolve_eq obj path _ h
    simp [AddCollectionItemCommand.execute, tryModifyProperty, h, hset]
  · intro e items it h hty
    have hset := setField_resolve_eq obj path _ h
    simp [AddCollectionItemCommand.execute, tryModifyProperty, h, reflectPush, hty, hset]
  · intro e h
    have hset := setField_resolve_eq obj path _ h
    simp [AddCollectionItemCommand.revert, tryModifyProperty, h, reflectPop, hset]
  · intro e items it h
    simp [AddCollectionItemCommand.revert, tryModifyProperty, h, reflectPop,
      List.getLast?_concat, List.dropLast_concat]

/-- Witness for C6: the four error-handling branches at concrete objects —
a scalar field, an empty collection with a mismatched item, an empty
collection popped on revert, and a two-item collection popped on
revert. -/
theorem add_command_error_handling_witness :
    AddCollectionItemCommand.execute ⟨"p", some (DynValue.scalar 1 1)⟩
        (RObject.mk [("p", DynValue.scalar 0 7)]) =
      some (⟨"p", some (DynValue.scalar 1 1)⟩, RObject.mk [("p", DynValue.scalar 0 7)],
        [LogMsg.notACollection "p"]) ∧
    AddCollectionItemCommand.execute ⟨"p", some (DynValue.scalar 1 5)⟩
        (RObject.mk [("p", DynValue.coll (TyId.prim 0) [])]) =
      some (⟨"p", some (DynValue.scalar 1 5)⟩,
        RObject.mk [("p", DynValue.coll (TyId.prim 0) [])],
        [LogMsg.pushTypeMismatch "p"]) ∧
    AddCollectionItemCommand.revert ⟨"p", none⟩
        (RObject.mk [("p", DynValue.coll (TyId.prim 0) [])]) =
      some (⟨"p", none⟩, RObject.mk [("p", DynValue.coll (TyId.prim 0) [])],
        [LogMsg.popFailed "p"]) ∧
    AddCollectionItemCommand.revert ⟨"p", none⟩
        (RObject.mk [("p", DynValue.coll (TyId.prim 0)
          [DynValue.scalar 0 1, DynValue.scalar 0 2])]) =
      some (⟨"p", some (DynValue.scalar 0 2)⟩,
        (RObject.mk [("p", DynValue.coll (TyId.prim 0)
          [DynValue.scalar 0 1, DynValue.scalar 0 2])]).setField "p"
          (DynValue.coll (TyId.prim 0) [DynValue.scalar 0 1]), []) :=
  ⟨(add_command_error_handling (RObject.mk [("p", DynValue.scalar 0 7)]) "p").1 0 7
      (some (DynValue.scalar 1 1)) rfl,
    (add_command_error_handling (RObject.mk [("p", DynValue.coll (TyId.prim 0) [])])
      "p").2.1 (TyId.prim 0) [] (DynValue.scalar 1 5) rfl (by decide),
    (add_command_error_handling (RObject.mk [("p", DynValue.coll (TyId.prim 0) [])])
      "p").2.2.1 (TyId.prim 0) rfl,
    (add_command_error_handling (RObject.mk [("p", DynValue.coll (TyId.prim 0)
      [DynValue.scalar 0 1, DynValue.scalar 0 2])]) "p").2.2.2 (TyId.prim 0)
      [DynValue.scalar 0 1] (DynValue.scalar 0 2) rfl⟩

end Fyrox
